import Mathlib

/-!
Verification development for the multi-port microwave network composition and
excitation solver (the scikit-rf Circuit engine) described by the repository
documentation.  The repository ships the documentation notebook of the engine;
the engine code itself is not part of the shipped sources, so every definition
below is modelled from the specification text, as flagged in its doc comment.

All quantities are per-frequency-point data: a `Circuit` value holds the
assembled global scattering description at one frequency point, and a sweep is
a function from frequency indices to `Circuit` values (the spec states that
frequency points are treated independently).
-/

/- ===================== Definitions ===================== -/

/- == Connection-graph validation (spec 4.2, error taxonomy of spec 7) == -/

/-- Modelled from the spec: the structural errors raised at topology
construction time (spec 7): a dangling port, a double-used port, or an
unregistered port, each named by its (network index, local port index) pair. -/
inductive TopologyError where
  | unconnectedPort : ℕ × ℕ → TopologyError
  | multiplyConnectedPort : ℕ × ℕ → TopologyError
  | unregisteredPort : ℕ × ℕ → TopologyError
  deriving DecidableEq

/-- Modelled from the spec: the raw construction input of a topology (spec 4.2,
the Circuit construction code is not among the shipped sources): a number of
component networks, the port count of each network, and a list of connections,
each connection being a list of (network index, local port index) pairs. -/
structure RawCircuit where
  nNetworks : ℕ
  nPorts : ℕ → ℕ
  connections : List (List (ℕ × ℕ))

/-- All (network, local port) pairs of the raw topology, networks in
registration order and ports in local order (spec 4.1). -/
def RawCircuit.allPorts (r : RawCircuit) : List (ℕ × ℕ) :=
  (List.range r.nNetworks).flatMap fun ni =>
    (List.range (r.nPorts ni)).map fun pj => (ni, pj)

/-- Number of occurrences of a port across all connections of the raw
topology. -/
def RawCircuit.occCount (r : RawCircuit) (p : ℕ × ℕ) : ℕ :=
  (r.connections.map fun conn => conn.count p).sum

/-- First registered port that is not covered by exactly one connection, in
registration order, if any. -/
def RawCircuit.firstBad (r : RawCircuit) : Option (ℕ × ℕ) :=
  r.allPorts.find? fun p => r.occCount p != 1

/-- Modelled from the spec: construction-time validation of the connection
graph (spec 4.2 item (c)): every port of every network must be covered by
exactly one connection; a violation raises a `TopologyError` naming the
offending port.  The solver operations are total functions on validated
circuits, so this check can only surface at construction time. -/
def RawCircuit.validateResult (r : RawCircuit) : Except TopologyError Unit :=
  match r.firstBad with
  | some p =>
      if r.occCount p = 0 then Except.error (TopologyError.unconnectedPort p)
      else Except.error (TopologyError.multiplyConnectedPort p)
  | none => Except.ok ()

/-- A raw topology with one dangling port: one 2-port network whose local
port 1 appears in no connection. -/
def danglingExample : RawCircuit :=
  { nNetworks := 1, nPorts := fun _ => 2, connections := [[(0, 0)]] }

/-- Modelled from the spec: the error raised when the excitation sequence
lengths disagree with the number of external ports (spec 4.4, 7), recording
the two offending lengths and the expected number of external ports. -/
structure DimensionMismatchError where
  powerLen : ℕ
  phaseLen : ℕ
  expected : ℕ
  deriving DecidableEq

/- == The per-frequency-point solver model (spec 3, 4.3, 4.4) == -/

noncomputable section

/-- Modelled from the spec: the excitation incident wave derived from the
per-external-port power (watts) and phase (radians) pairs, in the peak-value
convention (spec 4.4 step 1). -/
def aExt {k : ℕ} (power phase : Fin k → ℝ) (i : Fin k) : ℂ :=
  (Real.sqrt (2 * power i) : ℂ) * Complex.exp (Complex.I * (phase i : ℂ))

/-- Modelled from the spec: the assembled global scattering description of a
whole interconnected topology at one frequency point (spec 4.3 output): the
global scattering matrix `S` over all `n` global ports, the per-port reference
impedances `z0`, and the injective map `port_indexes` giving the global index
of each of the `k` external ports in declaration order. -/
structure Circuit (n k : ℕ) where
  S : Matrix (Fin n) (Fin n) ℂ
  z0 : Fin n → ℂ
  port_indexes : Fin k → Fin n
  inj : Function.Injective port_indexes

/-- The full incident-wave vector: the excitation incident wave at each
external global index and zero elsewhere (spec 4.4 step 2: the excitation
vector propagated through the global scattering matrix). -/
def Circuit.aFull {n k : ℕ} (c : Circuit n k) (power phase : Fin k → ℝ) (j : Fin n) : ℂ :=
  ∑ i, if c.port_indexes i = j then aExt power phase i else 0

/-- The reflected-wave vector `b = S_global * a` (spec 4.4 step 2). -/
def Circuit.bFull {n k : ℕ} (c : Circuit n k) (power phase : Fin k → ℝ) : Fin n → ℂ :=
  c.S.mulVec (c.aFull power phase)

/-- A global port index is external when it is the image of some external
port. -/
def Circuit.isExtPort {n k : ℕ} (c : Circuit n k) (j : Fin n) : Prop :=
  ∃ i, c.port_indexes i = j

instance {n k : ℕ} (c : Circuit n k) (j : Fin n) : Decidable (c.isExtPort j) := by
  unfold Circuit.isExtPort; exact Fintype.decidableExistsFintype

/-- Total voltage at every global port, from the forward and backward
traveling-wave voltages (spec 4.4 step 3): `V = (a + b) * sqrt(Re z0)`. -/
def Circuit.voltages {n k : ℕ} (c : Circuit n k) (power phase : Fin k → ℝ) (j : Fin n) : ℂ :=
  (c.aFull power phase j + c.bFull power phase j) * (Real.sqrt (c.z0 j).re : ℂ)

/-- Total current at every global port in the internal sign convention of the
spec (4.4): positive when flowing into the network the port terminates.  At an
external global index the owning network is the one-port placeholder, so the
wave incident on the owner is the circuit-side reflected wave and the sign
flips relative to the wave orientation of the global vectors. -/
def Circuit.currents {n k : ℕ} (c : Circuit n k) (power phase : Fin k → ℝ) (j : Fin n) : ℂ :=
  if c.isExtPort j then
    (c.bFull power phase j - c.aFull power phase j) / (Real.sqrt (c.z0 j).re : ℂ)
  else
    (c.aFull power phase j - c.bFull power phase j) / (Real.sqrt (c.z0 j).re : ℂ)

/-- Voltage at each external port (spec 4.4): the total voltage at its global
index. -/
def Circuit.voltagesExt {n k : ℕ} (c : Circuit n k) (power phase : Fin k → ℝ) (i : Fin k) : ℂ :=
  c.voltages power phase (c.port_indexes i)

/-- Current at each external port (spec 4.4), measured positive in the
direction entering the circuit, which is the sign-flip of the internal
convention at the same global index. -/
def Circuit.currentsExt {n k : ℕ} (c : Circuit n k) (power phase : Fin k → ℝ) (i : Fin k) : ℂ :=
  (c.aFull power phase (c.port_indexes i) - c.bFull power phase (c.port_indexes i)) /
    (Real.sqrt (c.z0 (c.port_indexes i)).re : ℂ)

/-- Modelled from the spec: the list-taking entry point of the voltage solver
(spec 4.4, 6): the power and phase sequences must both have one entry per
external port, else a `DimensionMismatchError` is raised; on success one
complex voltage per external port is returned for this frequency point. -/
def Circuit.voltagesExtChecked {n k : ℕ} (c : Circuit n k) (power phase : List ℝ) :
    Except DimensionMismatchError (List ℂ) :=
  if h : power.length = k ∧ phase.length = k then
    Except.ok (List.ofFn fun i : Fin k =>
      c.voltagesExt (fun j => power.get (Fin.cast h.1.symm j))
        (fun j => phase.get (Fin.cast h.2.symm j)) i)
  else Except.error ⟨power.length, phase.length, k⟩

/-- Modelled from the spec: the list-taking entry point of the current solver,
with the same length contract as the voltage entry point. -/
def Circuit.currentsExtChecked {n k : ℕ} (c : Circuit n k) (power phase : List ℝ) :
    Except DimensionMismatchError (List ℂ) :=
  if h : power.length = k ∧ phase.length = k then
    Except.ok (List.ofFn fun i : Fin k =>
      c.currentsExt (fun j => power.get (Fin.cast h.1.symm j))
        (fun j => phase.get (Fin.cast h.2.symm j)) i)
  else Except.error ⟨power.length, phase.length, k⟩

/- == Traveling-wave voltage recovery (spec 4.4 step 3) == -/

/-- Forward traveling-wave voltage at a port with incident wave `a` and
reference impedance `z` (spec 4.4 step 3). -/
def Vplus (a z : ℂ) : ℂ := a * (Real.sqrt z.re : ℂ)

/-- Backward traveling-wave voltage at a port with reflected wave `b` and
reference impedance `z` (spec 4.4 step 3). -/
def Vminus (b z : ℂ) : ℂ := b * (Real.sqrt z.re : ℂ)

/-- Total voltage recovered from the incident and reflected waves at a port
(spec 4.4 step 3, power-wave convention). -/
def Vtotal (a b z : ℂ) : ℂ := (a + b) * (Real.sqrt z.re : ℂ)

/- == Impedance mismatch handling (spec 4.3 numeric semantics) == -/

/-- Modelled from the spec: the pairwise transmission coefficient applied when
a connection joins ports of differing reference impedances; the transmitting
side is the source and the receiving side the load (spec 4.3):
`T = 2 * zLoad / (zLoad + zSource)`. -/
def transmissionCoeff (zSource zLoad : ℂ) : ℂ := 2 * zLoad / (zLoad + zSource)

/-- Modelled from the spec: the amplitude of a traveling wave `b` emitted by
the source-side port after crossing the junction to the load-side port; the
mismatch is handled analytically by the exact transmission coefficient, never
approximated or defaulted (spec 7). -/
def crossJunction (zSource zLoad b : ℂ) : ℂ := transmissionCoeff zSource zLoad * b

/-- Modelled from the spec: the effective source impedance seen by member
port `l` of a parallel junction of `kp` ports, obtained by solving the spec
relation `1 / Z_source = (sum over i of 1 / Z_i) - 1 / Z_l` for `Z_source`. -/
def parallelZSource {kp : ℕ} (Z : Fin kp → ℂ) (l : Fin kp) : ℂ :=
  ((∑ i, (Z i)⁻¹) - (Z l)⁻¹)⁻¹

/- == The matched-transmission-line example topology (spec 8) == -/

/-- Modelled from the spec: the assembled global scattering description that
the Global Scattering Assembler (whose code is not among the shipped sources)
produces for a single matched transmission line of characteristic impedance
50 ohms and electrical length `t` connected directly between two external
ports.  Per spec 8 the assembled transmission coefficient is the closed form
`exp (-j t)` of unit magnitude and the matched reflection coefficients are
zero. -/
def matchedLineCircuit (t : ℝ) : Circuit 2 2 where
  S := !![0, Complex.exp (-(t : ℂ) * Complex.I);
          Complex.exp (-(t : ℂ) * Complex.I), 0]
  z0 := fun _ => 50
  port_indexes := id
  inj := Function.injective_id

/-- A frequency sweep of the matched-line topology: each frequency point `f`
carries the electrical length `ts f` of the line at that frequency. -/
def lineSweep {nf : ℕ} (ts : Fin nf → ℝ) (f : Fin nf) : Circuit 2 2 :=
  matchedLineCircuit (ts f)

/-- Modelled from the spec: the closed-form lossless transmission-line
propagation of an input voltage `v` and input current `i0` over electrical
length `t` on a line of characteristic impedance `z` (the notebook computes
the reference output values with this helper, whose code is not among the
shipped sources): the standard ABCD relations
`v_out = v cos t - j z i0 sin t` and `i_out = -j (v / z) sin t + i0 cos t`. -/
def voltage_current_propagation (v i0 z : ℂ) (t : ℝ) : ℂ × ℂ :=
  (v * Complex.cos (t : ℂ) - Complex.I * z * i0 * Complex.sin (t : ℂ),
   -Complex.I * (v / z) * Complex.sin (t : ℂ) + i0 * Complex.cos (t : ℂ))

end

/- ===================== Helper lemmas ===================== -/

lemma aExt_one_zero_at_zero :
    aExt (k := 2) ![1, 0] ![0, 0] 0 = (Real.sqrt 2 : ℂ) := by
  unfold aExt
  norm_num

lemma aExt_one_zero_at_one :
    aExt (k := 2) ![1, 0] ![0, 0] 1 = 0 := by
  unfold aExt
  norm_num

lemma matched_aFull_zero (t : ℝ) :
    (matchedLineCircuit t).aFull ![1, 0] ![0, 0] 0 = (Real.sqrt 2 : ℂ) := by
  have h : ∀ i : Fin 2, (matchedLineCircuit t).port_indexes i = i := fun i => rfl
  unfold Circuit.aFull
  rw [Fin.sum_univ_two]
  simp only [h]
  rw [if_neg (show (1 : Fin 2) = 0 → False by decide)]
  simp [aExt_one_zero_at_zero]

lemma matched_aFull_one (t : ℝ) :
    (matchedLineCircuit t).aFull ![1, 0] ![0, 0] 1 = 0 := by
  have h : ∀ i : Fin 2, (matchedLineCircuit t).port_indexes i = i := fun i => rfl
  unfold Circuit.aFull
  rw [Fin.sum_univ_two]
  simp only [h]
  simp [aExt_one_zero_at_one]

lemma matched_bFull_zero (t : ℝ) :
    (matchedLineCircuit t).bFull ![1, 0] ![0, 0] 0 = 0 := by
  show ∑ x : Fin 2, (matchedLineCircuit t).S 0 x
      * (matchedLineCircuit t).aFull ![1, 0] ![0, 0] x = 0
  rw [Fin.sum_univ_two, matched_aFull_zero, matched_aFull_one]
  norm_num [matchedLineCircuit]

lemma matched_bFull_one (t : ℝ) :
    (matchedLineCircuit t).bFull ![1, 0] ![0, 0] 1
      = Complex.exp (-(t : ℂ) * Complex.I) * (Real.sqrt 2 : ℂ) := by
  show ∑ x : Fin 2, (matchedLineCircuit t).S 1 x
      * (matchedLineCircuit t).aFull ![1, 0] ![0, 0] x
      = Complex.exp (-(t : ℂ) * Complex.I) * (Real.sqrt 2 : ℂ)
  rw [Fin.sum_univ_two, matched_aFull_zero, matched_aFull_one]
  norm_num [matchedLineCircuit]

lemma matched_z0_re (t : ℝ) (j : Fin 2) :
    ((matchedLineCircuit t).z0 j).re = 50 := by
  show ((50 : ℂ)).re = 50
  norm_num

lemma sqrt_two_mul_sqrt_fifty : Real.sqrt 2 * Real.sqrt 50 = Real.sqrt (2 * 50 * 1) := by
  rw [← Real.sqrt_mul (by norm_num : (0 : ℝ) ≤ 2)]
  norm_num

lemma sqrt_two_div_sqrt_fifty : Real.sqrt 2 / Real.sqrt 50 = Real.sqrt (2 * 1 / 50) := by
  rw [← Real.sqrt_div (by norm_num : (0 : ℝ) ≤ 2)]
  norm_num

lemma sqrt_two_fifty_one : Real.sqrt (2 * 50 * 1) = 10 := by
  rw [show (2 * 50 * 1 : ℝ) = 10 ^ 2 by norm_num]
  exact Real.sqrt_sq (by norm_num)

lemma sqrt_two_one_fifty : Real.sqrt (2 * 1 / 50) = 1 / 5 := by
  rw [show (2 * 1 / 50 : ℝ) = (1 / 5) ^ 2 by norm_num]
  exact Real.sqrt_sq (by norm_num)

lemma exp_neg_mul_I (t : ℝ) :
    Complex.exp (-(t : ℂ) * Complex.I)
      = Complex.cos (t : ℂ) - Complex.sin (t : ℂ) * Complex.I := by
  rw [show -(t : ℂ) * Complex.I = (-(t : ℂ)) * Complex.I from rfl,
    Complex.exp_mul_I, Complex.cos_neg, Complex.sin_neg]
  ring

/- ===================== Claims ===================== -/

/- == Claim C2 == -/

/-- C2: for the matched 50-ohm line between two external ports, at every
frequency point of the sweep, the excitation power 1 W, phase 0 at the input
port yields the closed-form input voltage `sqrt (2 * Z0 * P)` and input
current `sqrt (2 * P / Z0)` with `Z0 = 50`, `P = 1`. -/
theorem C2_matched_line_input {nf : ℕ} (ts : Fin nf → ℝ) (f : Fin nf) :
    (lineSweep ts f).voltagesExt ![1, 0] ![0, 0] 0 = (Real.sqrt (2 * 50 * 1) : ℂ)
      ∧ (lineSweep ts f).currentsExt ![1, 0] ![0, 0] 0 = (Real.sqrt (2 * 1 / 50) : ℂ) := by
  constructor
  · show (lineSweep ts f).voltages ![1, 0] ![0, 0] 0 = _
    unfold lineSweep at *
    rw [Circuit.voltages, matched_aFull_zero, matched_bFull_zero, matched_z0_re,
      add_zero, ← Complex.ofReal_mul, sqrt_two_mul_sqrt_fifty]
  · unfold lineSweep Circuit.currentsExt at *
    rw [show (matchedLineCircuit (ts f)).port_indexes 0 = 0 from rfl,
      matched_aFull_zero, matched_bFull_zero, matched_z0_re, sub_zero,
      ← Complex.ofReal_div, sqrt_two_div_sqrt_fifty]

/- == Claim C1 == -/

/-- C1: for every topology, every excitation and every external port, the
external-port current equals the negation of the internal-convention current
vector restricted to the external global indices; a `Circuit` value is the
per-frequency-point data, so this holds at every frequency point of any
sweep. -/
theorem C1_sign_law {n k : ℕ} (c : Circuit n k) (power phase : Fin k → ℝ) (i : Fin k) :
    c.currentsExt power phase i = - c.currents power phase (c.port_indexes i) := by
  unfold Circuit.currentsExt Circuit.currents
  rw [if_pos ⟨i, rfl⟩]
  ring

/- == Claim C3 == -/

/-- C3: the incident wave the solver uses at external port `i` is exactly
`sqrt (2 * P_i) * exp (j * phi_i)` (peak-value convention), and the reflected
waves are obtained by propagating that excitation vector through the
assembled global scattering matrix, `b = S_global * a`. -/
theorem C3_excitation_wave {n k : ℕ} (c : Circuit n k)
    (power phase : Fin k → ℝ) (i : Fin k) :
    c.aFull power phase (c.port_indexes i)
        = (Real.sqrt (2 * power i) : ℂ) * Complex.exp (Complex.I * (phase i : ℂ))
      ∧ c.bFull power phase = c.S.mulVec (c.aFull power phase) := by
  constructor
  · unfold Circuit.aFull
    calc ∑ i', (if c.port_indexes i' = c.port_indexes i then aExt power phase i' else 0)
        = ∑ i', (if i' = i then aExt power phase i' else 0) := by
          refine Finset.sum_congr rfl fun i' _ => ?_
          by_cases hc : i' = i
          · subst hc; rw [if_pos rfl, if_pos rfl]
          · rw [if_neg hc, if_neg fun hh => hc (c.inj hh)]
      _ = aExt power phase i := by
          rw [Finset.sum_ite_eq' Finset.univ i]
          simp
      _ = (Real.sqrt (2 * power i) : ℂ) * Complex.exp (Complex.I * (phase i : ℂ)) := rfl
  · rfl

/- == Claim C4 == -/

/-- C4: the solver recovers the total voltage at each port as the sum of the
forward and backward traveling-wave voltages `V = Vplus + Vminus` with
`Vplus = a * sqrt (Re z0)` and `Vminus = b * sqrt (Re z0)`; and at a two-port
series junction, where the wave incident on port `m` is the backward wave of
the connected port `n` and the two real parts of the reference impedances
agree, the node voltage is the sum of the two backward-wave voltages. -/
theorem C4_traveling_wave_voltage {n k : ℕ} (c : Circuit n k)
    (power phase : Fin k → ℝ) (j : Fin n) (am bm bn zm zn : ℂ)
    (hcross : am = bn) (hz : zm.re = zn.re) :
    (c.voltages power phase j
        = Vplus (c.aFull power phase j) (c.z0 j)
          + Vminus (c.bFull power phase j) (c.z0 j)
      ∧ Vplus am zm = am * (Real.sqrt zm.re : ℂ)
      ∧ Vminus bm zm = bm * (Real.sqrt zm.re : ℂ))
      ∧ Vtotal am bm zm = Vminus bm zm + Vminus bn zn := by
  refine ⟨⟨?_, rfl, rfl⟩, ?_⟩
  · unfold Circuit.voltages Vplus Vminus
    ring
  · unfold Vtotal Vminus
    rw [hcross, hz]
    ring

/-- Witness for C4 at a concrete circuit, port and junction data. -/
theorem C4_witness :
    ((matchedLineCircuit 0).voltages ![1, 0] ![0, 0] 0
        = Vplus ((matchedLineCircuit 0).aFull ![1, 0] ![0, 0] 0) ((matchedLineCircuit 0).z0 0)
          + Vminus ((matchedLineCircuit 0).bFull ![1, 0] ![0, 0] 0) ((matchedLineCircuit 0).z0 0)
      ∧ Vplus 1 1 = 1 * (Real.sqrt (1 : ℂ).re : ℂ)
      ∧ Vminus 2 1 = 2 * (Real.sqrt (1 : ℂ).re : ℂ))
      ∧ Vtotal 1 2 1 = Vminus 2 1 + Vminus 1 1 :=
  C4_traveling_wave_voltage (matchedLineCircuit 0) ![1, 0] ![0, 0] 0 1 2 1 1 1 rfl rfl

/- == Claim C5 == -/

/-- C5: whenever a wave crosses a junction between a source-side port and a
load-side port, the solver model applies exactly the pairwise transmission
coefficient `T = 2 * Z0_load / (Z0_load + Z0_source)`; in particular when the
impedances are equal (no mismatch) the coefficient is exactly one, so nothing
is ever approximated or defaulted. -/
theorem C5_transmission_coefficient (zS zL b : ℂ) :
    crossJunction zS zL b = 2 * zL / (zL + zS) * b
      ∧ (zL = zS → zS ≠ 0 → crossJunction zS zL b = b) := by
  refine ⟨rfl, fun hzz hz0 => ?_⟩
  unfold crossJunction transmissionCoeff
  subst hzz
  have h2 : zL + zL ≠ 0 := by
    rw [show zL + zL = 2 * zL by ring]
    exact mul_ne_zero two_ne_zero hz0
  field_simp
  ring

/-- Witness for C5: at equal unit impedances the crossing returns the wave
unchanged. -/
theorem C5_witness : crossJunction 1 1 1 = 1 :=
  (C5_transmission_coefficient 1 1 1).2 rfl one_ne_zero

/- == Claim C6 == -/

/-- C6: for a parallel junction of `kp` ports with reference impedances `Z`,
the reciprocal of the effective source impedance seen by member port `l` is
exactly the harmonic sum of all member impedances excluding `l` itself. -/
theorem C6_parallel_harmonic {kp : ℕ} (Z : Fin kp → ℂ) (l : Fin kp) :
    (parallelZSource Z l)⁻¹ = ∑ i ∈ Finset.univ.erase l, (Z i)⁻¹ := by
  unfold parallelZSource
  rw [inv_inv,
    ← Finset.add_sum_erase Finset.univ (fun i => (Z i)⁻¹) (Finset.mem_univ l)]
  ring

/- == Claim C7 == -/

/-- C7: a raw topology in which some network port is not covered by exactly
one connection fails validation at construction time with a `TopologyError`
naming an offending port; since the solver operations are defined only on
validated circuits, the violation can never surface at solve time. -/
theorem C7_unconnected_port (r : RawCircuit)
    (h : ∃ p ∈ r.allPorts, r.occCount p ≠ 1) :
    ∃ q ∈ r.allPorts, r.occCount q ≠ 1
      ∧ (r.validateResult = Except.error (TopologyError.unconnectedPort q)
        ∨ r.validateResult = Except.error (TopologyError.multiplyConnectedPort q)) := by
  obtain ⟨p, hp, hne⟩ := h
  have hfind : r.firstBad.isSome := by
    rw [RawCircuit.firstBad, List.find?_isSome]
    exact ⟨p, hp, by simpa using hne⟩
  obtain ⟨q, hq⟩ := Option.isSome_iff_exists.mp hfind
  have hqmem : q ∈ r.allPorts := List.mem_of_find?_eq_some hq
  have hqne : r.occCount q ≠ 1 := by
    have := List.find?_some hq
    simpa using this
  refine ⟨q, hqmem, hqne, ?_⟩
  have hval : r.validateResult
      = if r.occCount q = 0 then Except.error (TopologyError.unconnectedPort q)
        else Except.error (TopologyError.multiplyConnectedPort q) := by
    unfold RawCircuit.validateResult
    rw [hq]
  by_cases h0 : r.occCount q = 0
  · rw [hval, if_pos h0]
    exact Or.inl rfl
  · rw [hval, if_neg h0]
    exact Or.inr rfl

/-- Witness for C7: the concrete dangling-port topology fails validation with
an error naming an uncovered port. -/
theorem C7_witness :
    ∃ q ∈ danglingExample.allPorts, danglingExample.occCount q ≠ 1
      ∧ (danglingExample.validateResult = Except.error (TopologyError.unconnectedPort q)
        ∨ danglingExample.validateResult
            = Except.error (TopologyError.multiplyConnectedPort q)) :=
  C7_unconnected_port danglingExample (by decide)

/- == Claim C8 == -/

/-- C8: calling the voltage or current solver with power and phase sequences
whose lengths disagree with the number of external ports yields a
`DimensionMismatchError`; when both lengths agree (and each power entry is
nonnegative), both calls succeed and return one complex value per external
port for this frequency point. -/
theorem C8_dimension_check {n k : ℕ} (c : Circuit n k) (power phase : List ℝ) :
    (¬ (power.length = k ∧ phase.length = k) →
        c.voltagesExtChecked power phase
            = Except.error ⟨power.length, phase.length, k⟩
          ∧ c.currentsExtChecked power phase
            = Except.error ⟨power.length, phase.length, k⟩)
      ∧ ((power.length = k ∧ phase.length = k ∧ ∀ x ∈ power, 0 ≤ x) →
        ∃ vs cs : List ℂ,
          c.voltagesExtChecked power phase = Except.ok vs ∧ vs.length = k
            ∧ c.currentsExtChecked power phase = Except.ok cs ∧ cs.length = k) := by
  constructor
  · intro hno
    unfold Circuit.voltagesExtChecked Circuit.currentsExtChecked
    rw [dif_neg hno, dif_neg hno]
    exact ⟨rfl, rfl⟩
  · rintro ⟨h1, h2, -⟩
    unfold Circuit.voltagesExtChecked Circuit.currentsExtChecked
    rw [dif_pos ⟨h1, h2⟩, dif_pos ⟨h1, h2⟩]
    exact ⟨_, _, rfl, by simp, rfl, by simp⟩

/-- Witness for C8: the matched-line circuit with matching length-2 sequences
returns one value per external port from both solvers. -/
theorem C8_witness :
    ∃ vs cs : List ℂ,
      (matchedLineCircuit 0).voltagesExtChecked [1, 0] [0, 0] = Except.ok vs
        ∧ vs.length = 2
        ∧ (matchedLineCircuit 0).currentsExtChecked [1, 0] [0, 0] = Except.ok cs
        ∧ cs.length = 2 :=
  (C8_dimension_check (matchedLineCircuit 0) [1, 0] [0, 0]).2
    ⟨rfl, rfl, by
      intro x hx
      simp at hx
      rcases hx with rfl | rfl <;> norm_num⟩

/- == Claim C9 == -/

/-- C9: zero excitation power at an external port is a valid input: the
derived incident wave there is exactly zero, while the reflected wave (and
hence the voltage) at such a port can still be nonzero from the other ports,
as the output port of the matched-line topology shows. -/
theorem C9_zero_power {k : ℕ} (power phase : Fin k → ℝ) (i : Fin k)
    (h : power i = 0) :
    aExt power phase i = 0
      ∧ (matchedLineCircuit 0).bFull ![1, 0] ![0, 0] 1 ≠ 0
      ∧ (matchedLineCircuit 0).voltagesExt ![1, 0] ![0, 0] 1 ≠ 0 := by
  refine ⟨?_, ?_, ?_⟩
  · unfold aExt
    rw [h]
    norm_num
  · rw [matched_bFull_one]
    exact mul_ne_zero (Complex.exp_ne_zero _)
      (Complex.ofReal_ne_zero.mpr (Real.sqrt_ne_zero'.mpr (by norm_num)))
  · unfold Circuit.voltagesExt
    rw [show (matchedLineCircuit 0).port_indexes 1 = 1 from rfl]
    unfold Circuit.voltages
    rw [matched_aFull_one, matched_bFull_one, matched_z0_re, zero_add]
    exact mul_ne_zero
      (mul_ne_zero (Complex.exp_ne_zero _)
        (Complex.ofReal_ne_zero.mpr (Real.sqrt_ne_zero'.mpr (by norm_num))))
      (Complex.ofReal_ne_zero.mpr (Real.sqrt_ne_zero'.mpr (by norm_num)))

/-- Witness for C9 at the zero-power output port of the matched-line
topology. -/
theorem C9_witness :
    aExt (k := 2) ![1, 0] ![0, 0] 1 = 0
      ∧ (matchedLineCircuit 0).bFull ![1, 0] ![0, 0] 1 ≠ 0
      ∧ (matchedLineCircuit 0).voltagesExt ![1, 0] ![0, 0] 1 ≠ 0 :=
  C9_zero_power ![1, 0] ![0, 0] 1 (by simp)

/- == Claim C10 == -/

/-- C10: for the matched line, at every frequency point, the solver output at
the output external port agrees with the closed-form transmission-line
propagation of the input voltage and current over the electrical length: the
voltages are equal, and the solver current is the propagated current with the
sign flipped by the external-port current convention. -/
theorem C10_matched_line_output {nf : ℕ} (ts : Fin nf → ℝ) (f : Fin nf) :
    (lineSweep ts f).voltagesExt ![1, 0] ![0, 0] 1
        = (voltage_current_propagation (Real.sqrt (2 * 50 * 1)) (Real.sqrt (2 * 1 / 50))
            50 (ts f)).1
      ∧ (lineSweep ts f).currentsExt ![1, 0] ![0, 0] 1
        = -(voltage_current_propagation (Real.sqrt (2 * 50 * 1)) (Real.sqrt (2 * 1 / 50))
            50 (ts f)).2 := by
  have h1 : ((Real.sqrt 2 : ℝ) : ℂ) * ((Real.sqrt 50 : ℝ) : ℂ) = (10 : ℂ) := by
    rw [← Complex.ofReal_mul, sqrt_two_mul_sqrt_fifty, sqrt_two_fifty_one]
    norm_num
  have h2 : ((Real.sqrt (2 * 50 * 1) : ℝ) : ℂ) = (10 : ℂ) := by
    rw [sqrt_two_fifty_one]
    norm_num
  have h3 : ((Real.sqrt (2 * 1 / 50) : ℝ) : ℂ) = (1 / 5 : ℂ) := by
    rw [sqrt_two_one_fifty]
    norm_num
  have h4 : ((Real.sqrt 2 : ℝ) : ℂ) / ((Real.sqrt 50 : ℝ) : ℂ) = (1 / 5 : ℂ) := by
    rw [← Complex.ofReal_div, sqrt_two_div_sqrt_fifty, sqrt_two_one_fifty]
    norm_num
  unfold lineSweep voltage_current_propagation
  constructor
  · unfold Circuit.voltagesExt
    rw [show (matchedLineCircuit (ts f)).port_indexes 1 = 1 from rfl]
    unfold Circuit.voltages
    rw [matched_aFull_one, matched_bFull_one, matched_z0_re, zero_add,
      exp_neg_mul_I, h2, h3, mul_assoc, h1]
    ring
  · unfold Circuit.currentsExt
    rw [show (matchedLineCircuit (ts f)).port_indexes 1 = 1 from rfl,
      matched_aFull_one, matched_bFull_one, matched_z0_re, zero_sub,
      exp_neg_mul_I, h2, h3, neg_div, mul_div_assoc, h4]
    ring
